import Mathlib

/-!
Shallow embedding of the block-versioning core of the menualai server.

The definitions below are translated from the server route handlers
(`src/server/src/routes/documents.js`, `src/server/src/routes/blocks.js`,
both the MariaDB and the better-sqlite3 variants, which implement the same
logic) and from the database schema (`database/schema.sql`, MariaDB and
SQLite variants).  Machine rows are modelled as Lean structures, the
database as lists of rows, SQL statements as explicit state transformers,
and the transaction of `PUT /documents/:id/blocks` as a statement list run
by an executor with rollback-on-failure semantics.
-/

namespace Menualai

/-- Roles, from the `roleOrder` maps in the route handlers and the
`workspace_members.role` column. `owner` is never stored in a membership
row; it is synthesized by the access query. -/
inductive Role where
  | viewer
  | writer
  | editor
  | admin
  | owner
deriving DecidableEq, Repr

/-- `const roleOrder = { viewer: 0, writer: 1, editor: 2, admin: 3, owner: 4 }`. -/
def roleOrder : Role → Nat
  | .viewer => 0
  | .writer => 1
  | .editor => 2
  | .admin => 3
  | .owner => 4

/-- A row of the `workspaces` table (fields the core reads). -/
structure Workspace where
  id : Nat
  owner_id : Nat
deriving DecidableEq, Repr

/-- A row of the `workspace_members` table. -/
structure WorkspaceMember where
  workspace_id : Nat
  user_id : Nat
  role : Role
deriving DecidableEq, Repr

/-- A row of the `categories` table (fields the core reads). -/
structure Category where
  id : Nat
  workspace_id : Nat
deriving DecidableEq, Repr

/-- A row of the `documents` table (fields the core reads/writes).
`updated_at` is modelled as a Nat timestamp. -/
structure Document where
  id : Nat
  category_id : Nat
  title : String
  status : String
  created_by : Nat
  updated_at : Nat
deriving DecidableEq, Repr

/-- A row of the `blocks` table. -/
structure Block where
  id : Nat
  document_id : Nat
  block_type : String
  content : String
  file_url : Option String
  file_name : Option String
  file_size : Option Nat
  sort_order : Nat
deriving DecidableEq, Repr

/-- A row of the `document_versions` table.  The `snapshot` column stores
`JSON.stringify(currentBlocks)`; it is modelled as the serialized row list
itself. -/
structure DocumentVersion where
  id : Nat
  document_id : Nat
  version_number : Nat
  snapshot : List Block
  created_by : Nat
deriving DecidableEq, Repr

/-- One block of the request body of `PUT /documents/:id/blocks`
(`{ blockType, content?, fileUrl?, fileName?, fileSize? }`). -/
structure BlockInput where
  blockType : String
  content : Option String
  fileUrl : Option String
  fileName : Option String
  fileSize : Option Nat
deriving DecidableEq, Repr

/-- The database state: the tables the core touches plus the
auto-increment counters and the clock used for `NOW()` /
`datetime('now')`. -/
structure DB where
  workspaces : List Workspace
  workspace_members : List WorkspaceMember
  categories : List Category
  documents : List Document
  blocks : List Block
  document_versions : List DocumentVersion
  nextDocumentId : Nat
  nextBlockId : Nat
  nextVersionId : Nat
  now : Nat
deriving DecidableEq, Repr

/-- `SELECT * FROM blocks WHERE document_id = ?` (table order). -/
def blocksOfDoc (db : DB) (documentId : Nat) : List Block :=
  db.blocks.filter (fun b => b.document_id == documentId)

/-- `SELECT COALESCE(MAX(version_number), 0) FROM document_versions
WHERE document_id = ?`. -/
def maxVersionNumber (db : DB) (documentId : Nat) : Nat :=
  ((db.document_versions.filter (fun v => v.document_id == documentId)).map
    (fun v => v.version_number)).foldr max 0

/-- `SELECT MAX(sort_order) FROM blocks WHERE document_id = ?`, with the
JS `(maxOrder?.maxOrder || 0)` defaulting. -/
def maxSortOrder (db : DB) (documentId : Nat) : Nat :=
  ((blocksOfDoc db documentId).map (fun b => b.sort_order)).foldr max 0

/-- The `block_type` column constraint:
`CHECK (block_type IN ('text', 'image', 'file'))` (SQLite) /
`ENUM('text', 'image', 'file') NOT NULL` (MariaDB). -/
def isAllowedBlockType (t : String) : Bool :=
  t == "text" || t == "image" || t == "file"

/-- The `documents.status` column constraint:
`CHECK (status IN ('draft', 'published', 'archived'))`. -/
def isAllowedDocStatus (s : String) : Bool :=
  s == "draft" || s == "published" || s == "archived"

/-- `checkDocumentAccess(userId, documentId, requiredRole)` from
`routes/documents.js` (identical in `routes/blocks.js`): join the document
to its category and workspace, synthesize `owner` when
`w.owner_id = userId`, otherwise read the membership row; return the role
when `roleOrder[role] >= roleOrder[requiredRole]`, else null. -/
def checkDocumentAccess (db : DB) (userId documentId : Nat)
    (requiredRole : Role) : Option Role :=
  match db.documents.find? (fun d => d.id == documentId) with
  | none => none
  | some d =>
    match db.categories.find? (fun c => c.id == d.category_id) with
    | none => none
    | some c =>
      match db.workspaces.find? (fun w => w.id == c.workspace_id) with
      | none => none
      | some w =>
        if w.owner_id == userId then
          if roleOrder .owner ≥ roleOrder requiredRole then some .owner else none
        else
          match db.workspace_members.find?
              (fun m => m.workspace_id == w.id && m.user_id == userId) with
          | none => none
          | some m =>
            if roleOrder m.role ≥ roleOrder requiredRole then some m.role else none

/-- `checkCategoryAccess(userId, categoryId, requiredRole)` from
`routes/documents.js`: as above but starting at the category. -/
def checkCategoryAccess (db : DB) (userId categoryId : Nat)
    (requiredRole : Role) : Option Role :=
  match db.categories.find? (fun c => c.id == categoryId) with
  | none => none
  | some c =>
    match db.workspaces.find? (fun w => w.id == c.workspace_id) with
    | none => none
    | some w =>
      if w.owner_id == userId then
        if roleOrder .owner ≥ roleOrder requiredRole then some .owner else none
      else
        match db.workspace_members.find?
            (fun m => m.workspace_id == w.id && m.user_id == userId) with
        | none => none
        | some m =>
          if roleOrder m.role ≥ roleOrder requiredRole then some m.role else none

/-- JS `x || null` on an optional string: the empty string is falsy. -/
def jsOrNullStr : Option String → Option String
  | some "" => none
  | x => x

/-- JS `x || null` on an optional number: `0` is falsy. -/
def jsOrNullNat : Option Nat → Option Nat
  | some 0 => none
  | x => x

/-- JS `block.content || ''`. -/
def jsOrEmpty : Option String → String
  | none => ""
  | some s => s

/-- The SQL statements issued inside the `saveBlocks` transaction of
`PUT /documents/:id/blocks`. -/
inductive Stmt where
  | insertVersion (documentId versionNumber : Nat) (snapshot : List Block)
      (createdBy : Nat)
  | deleteBlocks (documentId : Nat)
  | insertBlock (documentId : Nat) (input : BlockInput) (sortOrder : Nat)
  | touchDocument (documentId : Nat)
deriving DecidableEq, Repr

/-- Execute one statement against the database.  `none` models a
statement rejected by the storage engine; per the schema the only
constraint the transaction body can trip is the `block_type`
CHECK/ENUM constraint on `blocks`.  Auto-increment ids are assigned at
execution time. -/
def applyStmt (s : Stmt) (db : DB) : Option DB :=
  match s with
  | .insertVersion documentId versionNumber snapshot createdBy =>
    some { db with
      document_versions := db.document_versions ++
        [⟨db.nextVersionId, documentId, versionNumber, snapshot, createdBy⟩],
      nextVersionId := db.nextVersionId + 1 }
  | .deleteBlocks documentId =>
    some { db with blocks := db.blocks.filter (fun b => b.document_id != documentId) }
  | .insertBlock documentId input sortOrder =>
    if isAllowedBlockType input.blockType then
      some { db with
        blocks := db.blocks ++
          [⟨db.nextBlockId, documentId, input.blockType, jsOrEmpty input.content,
            jsOrNullStr input.fileUrl, jsOrNullStr input.fileName,
            jsOrNullNat input.fileSize, sortOrder⟩],
        nextBlockId := db.nextBlockId + 1 }
    else
      none
  | .touchDocument documentId =>
    some { db with
      documents := db.documents.map (fun d =>
        if d.id == documentId then { d with updated_at := db.now } else d) }

/-- Run the statements of a transaction body in order.  `F` is a fault
oracle: `F i = true` injects a storage-layer failure at the i-th
statement (modelling any runtime error inside the transaction).  A
`none` result means the transaction body threw and the engine rolls the
state back. -/
def execStmts (F : Nat → Bool) : Nat → List Stmt → DB → Option DB
  | _, [], db => some db
  | i, s :: rest, db =>
    if F i then none
    else (applyStmt s db).bind (execStmts F (i + 1) rest)

/-- The statements successfully executed before the transaction body
failed (the whole list when it did not fail): the observable work done
inside the transaction before rollback. -/
def appliedStmts (F : Nat → Bool) : Nat → List Stmt → DB → List Stmt
  | _, [], _ => []
  | i, s :: rest, db =>
    if F i then []
    else
      match applyStmt s db with
      | none => []
      | some db2 => s :: appliedStmts F (i + 1) rest db2

/-- The per-block INSERTs of the save loop:
`blocks.forEach((block, index) => insertBlock.run(id, ..., index + 1))`,
sort order = 1-based position. -/
def insertStmts (documentId : Nat) (sortOrder : Nat) :
    List BlockInput → List Stmt
  | [] => []
  | b :: rest =>
    .insertBlock documentId b sortOrder :: insertStmts documentId (sortOrder + 1) rest

/-- The transaction body of `PUT /documents/:id/blocks` as a statement
list.  The version number and the snapshot are the values the handler
reads at the top of the transaction, before the DELETE — since no write
precedes those reads they are computed from the entry state. -/
def txStmts (db : DB) (userId documentId : Nat) (blocks : List BlockInput)
    (createVersion : Bool) : List Stmt :=
  (if createVersion then
    [.insertVersion documentId (maxVersionNumber db documentId + 1)
      (blocksOfDoc db documentId) userId]
   else []) ++
  [.deleteBlocks documentId] ++
  insertStmts documentId 1 blocks ++
  [.touchDocument documentId]

/-- `PUT /documents/:id/blocks` (`router.put('/:id/blocks', ...)`):
access check (403), document lookup (404), then the `saveBlocks`
transaction; a failure inside the transaction rolls back to the entry
state and surfaces through `next(error)` as HTTP 500.  Returns the HTTP
status and the database state after the request. -/
def putBlocks (db : DB) (userId documentId : Nat) (blocks : List BlockInput)
    (createVersion : Bool) (F : Nat → Bool) : Nat × DB :=
  match checkDocumentAccess db userId documentId .writer with
  | none => (403, db)
  | some _ =>
    match db.documents.find? (fun d => d.id == documentId) with
    | none => (404, db)
    | some _ =>
      match execStmts F 0 (txStmts db userId documentId blocks createVersion) db with
      | none => (500, db)
      | some db2 => (200, db2)

/-- `POST /api/documents` (`router.post('/', ...)`): required-field
check (400), writer access on the category (403), insert the document
row, then insert the default empty text block with sort order 1.
Returns the HTTP status, the state, and the new document id. -/
def createDocument (db : DB) (userId : Nat) (categoryId : Option Nat)
    (title : Option String) (status : String) : Nat × DB × Option Nat :=
  if categoryId.getD 0 == 0 || title.getD "" == "" then (400, db, none)
  else
    match checkCategoryAccess db userId (categoryId.getD 0) .writer with
    | none => (403, db, none)
    | some _ =>
      if isAllowedDocStatus status then
        let documentId := db.nextDocumentId
        let db1 : DB := { db with
          documents := db.documents ++
            [⟨documentId, categoryId.getD 0, title.getD "", status, userId, db.now⟩],
          nextDocumentId := db.nextDocumentId + 1 }
        let db2 : DB := { db1 with
          blocks := db1.blocks ++
            [⟨db1.nextBlockId, documentId, "text", "", none, none, none, 1⟩],
          nextBlockId := db1.nextBlockId + 1 }
        (201, db2, some documentId)
      else
        (500, db, none)

/-- `POST /api/blocks` (`router.post('/', ...)` in `routes/blocks.js`):
required-field check (400), writer access (403), then the sort-order
computation: with `afterBlockId` present and found, insert at
`afterBlock.sort_order + 1` after shifting up every block of the
document at or beyond that position; with `afterBlockId` absent, insert
at `MAX(sort_order) + 1`; with `afterBlockId` dangling, `sortOrder`
keeps its initial value 1 and nothing is shifted.  The endpoint runs
without a transaction, so a failed INSERT does not undo the shift. -/
def createBlock (db : DB) (userId documentId : Nat) (blockType : String)
    (content fileUrl fileName : Option String) (fileSize : Option Nat)
    (afterBlockId : Option Nat) : Nat × DB :=
  if documentId == 0 || blockType == "" then (400, db)
  else
    match checkDocumentAccess db userId documentId .writer with
    | none => (403, db)
    | some _ =>
      let shifted : Nat × DB :=
        match jsOrNullNat afterBlockId with
        | some abid =>
          match db.blocks.find? (fun b => b.id == abid) with
          | some afterBlock =>
            let so := afterBlock.sort_order + 1
            (so, { db with blocks := db.blocks.map (fun b =>
              if b.document_id == documentId && so ≤ b.sort_order then
                { b with sort_order := b.sort_order + 1 }
              else b) })
          | none => (1, db)
        | none => (maxSortOrder db documentId + 1, db)
      let sortOrder := shifted.1
      let db1 := shifted.2
      if isAllowedBlockType blockType then
        let db2 : DB := { db1 with
          blocks := db1.blocks ++
            [⟨db1.nextBlockId, documentId, blockType, jsOrEmpty content,
              jsOrNullStr fileUrl, jsOrNullStr fileName, jsOrNullNat fileSize,
              sortOrder⟩],
          nextBlockId := db1.nextBlockId + 1 }
        let db3 : DB := { db2 with
          documents := db2.documents.map (fun d =>
            if d.id == documentId then { d with updated_at := db2.now } else d) }
        (201, db3)
      else
        (500, db1)

/-- `DELETE /api/blocks/:id` (`router.delete('/:id', ...)` in
`routes/blocks.js`): look the block up (404), writer access on its
document (403), then inside a transaction delete the row, decrement the
sort order of every later block of the same document, and touch the
document timestamp. -/
def deleteBlock (db : DB) (userId blockId : Nat) : Nat × DB :=
  match db.blocks.find? (fun b => b.id == blockId) with
  | none => (404, db)
  | some block =>
    match checkDocumentAccess db userId block.document_id .writer with
    | none => (403, db)
    | some _ =>
      let db1 : DB := { db with
        blocks := (db.blocks.filter (fun b => b.id != blockId)).map (fun b =>
          if b.document_id == block.document_id && block.sort_order < b.sort_order then
            { b with sort_order := b.sort_order - 1 }
          else b) }
      let db2 : DB := { db1 with
        documents := db1.documents.map (fun d =>
          if d.id == block.document_id then { d with updated_at := db1.now } else d) }
      (200, db2)

/-- HTTP methods used by the routers. -/
inductive Method where
  | get
  | post
  | put
  | delete
deriving DecidableEq, Repr

/-- One segment of an Express route pattern. -/
inductive Seg where
  | lit (s : String)
  | param
deriving DecidableEq, Repr

/-- Express path matching: a pattern matches a path of the same length,
literal segments by equality, `:param` segments matching any one
segment. -/
def matchPattern : List Seg → List String → Bool
  | [], [] => true
  | .lit s :: ps, t :: ts => s == t && matchPattern ps ts
  | .param :: ps, _ :: ts => matchPattern ps ts
  | _, _ => false

/-- A route registration: method plus pattern. -/
structure RouteDef where
  method : Method
  pattern : List Seg
deriving DecidableEq, Repr

/-- Every route registered on the documents router
(`routes/documents.js`, identical route table in both variants):
GET `/`, GET `/:id`, POST `/`, PUT `/:id`, PUT `/:id/blocks`,
GET `/:id/versions`, DELETE `/:id`.  Requests matched by no route fall
through to the server's catch-all `app.use` handler, which answers
404 `{ error: 'Not found' }`. -/
def documentsRoutes : List RouteDef :=
  [⟨.get, []⟩,
   ⟨.get, [.param]⟩,
   ⟨.post, []⟩,
   ⟨.put, [.param]⟩,
   ⟨.put, [.param, .lit "blocks"]⟩,
   ⟨.get, [.param, .lit "versions"]⟩,
   ⟨.delete, [.param]⟩]

/-- The route of the documents router that handles a request, if any. -/
def documentsRouterMatch (m : Method) (path : List String) : Option RouteDef :=
  documentsRoutes.find? (fun r => r.method == m && matchPattern r.pattern path)

/-- Fault oracle injecting no storage failures: the normal run. -/
def noFault : Nat → Bool := fun _ => false

/-- The load-bearing ordering invariant of §3 of the design: a sort-order
list is dense, gapless and 1-based exactly when it is a permutation of
`1..N`. -/
def gapless (l : List Nat) : Prop :=
  List.Perm l (List.range' 1 l.length)

instance (l : List Nat) : Decidable (gapless l) :=
  inferInstanceAs (Decidable (List.Perm l (List.range' 1 l.length)))

/-- A sample state: workspace 1 owned by user 1, with user 2 a viewer,
one category, one document holding one text block, no versions yet. -/
def sampleDb : DB :=
  { workspaces := [⟨1, 1⟩],
    workspace_members := [⟨1, 2, .viewer⟩],
    categories := [⟨1, 1⟩],
    documents := [⟨1, 1, "Doc", "draft", 1, 0⟩],
    blocks := [⟨1, 1, "text", "A", none, none, none, 1⟩],
    document_versions := [],
    nextDocumentId := 2, nextBlockId := 2, nextVersionId := 1, now := 7 }

/-- A block input whose type is outside `{text, image, file}`. -/
def badInput : BlockInput := ⟨"video", some "X", none, none, none⟩

/-- A well-typed text block input with content "B". -/
def inputB : BlockInput := ⟨"text", some "B", none, none, none⟩

/-- A well-typed text block input with content "C". -/
def inputC : BlockInput := ⟨"text", some "C", none, none, none⟩

/-- A state whose `documents` table is empty (workspace and category
exist), for requests naming a nonexistent document. -/
def emptyDocsDb : DB :=
  { workspaces := [⟨1, 1⟩],
    workspace_members := [],
    categories := [⟨1, 1⟩],
    documents := [],
    blocks := [],
    document_versions := [],
    nextDocumentId := 1, nextBlockId := 1, nextVersionId := 1, now := 0 }

/-- A state where the workspace owner also carries an explicit `viewer`
membership row for their own workspace. -/
def ownerWithRowDb : DB :=
  { workspaces := [⟨1, 1⟩],
    workspace_members := [⟨1, 1, .viewer⟩],
    categories := [⟨1, 1⟩],
    documents := [⟨1, 1, "Doc", "draft", 1, 0⟩],
    blocks := [],
    document_versions := [],
    nextDocumentId := 2, nextBlockId := 1, nextVersionId := 1, now := 0 }

/-- A state already holding a `document_versions` row (document 1,
version 1). -/
def oneVersionDb : DB :=
  { workspaces := [⟨1, 1⟩],
    workspace_members := [],
    categories := [⟨1, 1⟩],
    documents := [⟨1, 1, "Doc", "draft", 1, 0⟩],
    blocks := [],
    document_versions := [⟨0, 1, 1, [], 1⟩],
    nextDocumentId := 2, nextBlockId := 1, nextVersionId := 1, now := 0 }

/-- A state whose document 1 holds two blocks with sort orders 1 and 2. -/
def twoBlocksDb : DB :=
  { workspaces := [⟨1, 1⟩],
    workspace_members := [],
    categories := [⟨1, 1⟩],
    documents := [⟨1, 1, "Doc", "draft", 1, 0⟩],
    blocks := [⟨1, 1, "text", "A", none, none, none, 1⟩,
               ⟨2, 1, "text", "B", none, none, none, 2⟩],
    document_versions := [],
    nextDocumentId := 2, nextBlockId := 3, nextVersionId := 1, now := 7 }

/-- The block row the save loop's INSERT produces for one input at a
given auto-increment id and sort order (the row shape of
`applyStmt (.insertBlock ...)`). -/
def mkRow (id documentId : Nat) (input : BlockInput) (sortOrder : Nat) : Block :=
  ⟨id, documentId, input.blockType, jsOrEmpty input.content,
   jsOrNullStr input.fileUrl, jsOrNullStr input.fileName,
   jsOrNullNat input.fileSize, sortOrder⟩

/-- The rows the save loop inserts for an input list, ids and sort
orders ascending from the given start values. -/
def mkRows (id documentId sortOrder : Nat) : List BlockInput → List Block
  | [] => []
  | b :: rest =>
    mkRow id documentId b sortOrder :: mkRows (id + 1) documentId (sortOrder + 1) rest

/-- A statement the storage engine rejects: per the schema, exactly a
block INSERT whose type violates the `block_type` CHECK/ENUM
constraint. -/
def isBadStmt : Stmt → Bool
  | .insertBlock _ input _ => !(isAllowedBlockType input.blockType)
  | _ => false

/-- C1: if any step of the `PUT /documents/:id/blocks` request fails —
the access check, the document lookup, or any statement of the
snapshot / delete-and-reinsert / timestamp transaction (at any fault
point `F`) — the database is left exactly as it was: no partial blocks,
no orphan version row, no advanced timestamp. -/
theorem saveBlocks_atomic (db : DB) (userId documentId : Nat)
    (blocks : List BlockInput) (createVersion : Bool) (F : Nat → Bool)
    (h : (putBlocks db userId documentId blocks createVersion F).1 ≠ 200) :
    (putBlocks db userId documentId blocks createVersion F).2 = db := by
  unfold putBlocks at h ⊢
  cases hA : checkDocumentAccess db userId documentId .writer with
  | none => simp [hA]
  | some r =>
    simp only [hA] at h ⊢
    cases hD : db.documents.find? (fun d => d.id == documentId) with
    | none => simp [hD]
    | some d =>
      simp only [hD] at h ⊢
      cases hE : execStmts F 0 (txStmts db userId documentId blocks createVersion) db with
      | none => simp [hE]
      | some db2 => simp [hE] at h

/-- Witness for C1 at a concrete failing request: user 2 is only a
viewer, so the save is refused (403) and the state is untouched. -/
theorem saveBlocks_atomic_witness :
    (putBlocks sampleDb 2 1 [] false noFault).1 ≠ 200 ∧
    (putBlocks sampleDb 2 1 [] false noFault).2 = sampleDb :=
  ⟨by decide, saveBlocks_atomic sampleDb 2 1 [] false noFault (by decide)⟩

/-- C2: the documents router registers no route for
`POST /documents/:id/restore/:versionId` — the restore request matches
none of its routes for any id strings, so it falls through to the
server's catch-all 404 handler and no handler ever rewrites the blocks. -/
theorem restore_route_unregistered (docId versionId : String) :
    documentsRouterMatch .post [docId, "restore", versionId] = none := rfl

/-- C4 counterexample: the schema of `document_versions` (MariaDB and
SQLite variants alike) carries no uniqueness constraint on
`(document_id, version_number)` — the storage engine accepts a second
row with the same document and version number, and both rows coexist. -/
theorem duplicate_version_rows_coexist :
    (applyStmt (.insertVersion 1 1 [] 2) oneVersionDb).isSome = true ∧
    (DB.document_versions
        ((applyStmt (.insertVersion 1 1 [] 2) oneVersionDb).getD oneVersionDb)).countP
        (fun v => v.document_id == 1 && v.version_number == 1) = 2 := by
  decide

/-- C4 amended: the `document_versions` insert is unconditional — the
storage layer performs no uniqueness check on
`(document_id, version_number)` (the schema has only a non-unique index
on `document_id`), so nothing at the storage layer prevents two rows
with the same document and version number from coexisting. -/
theorem insertVersion_unconditional (db : DB) (documentId versionNumber : Nat)
    (snapshot : List Block) (createdBy : Nat) :
    applyStmt (.insertVersion documentId versionNumber snapshot createdBy) db =
      some { db with
        document_versions := db.document_versions ++
          [⟨db.nextVersionId, documentId, versionNumber, snapshot, createdBy⟩],
        nextVersionId := db.nextVersionId + 1 } := rfl

/-- C6: when the owning workspace of a document has `owner_id = userId`,
access resolution returns `owner` for every required role — whatever the
`workspace_members` table holds for that user. -/
theorem owner_supremacy (db : DB) (userId documentId : Nat)
    (requiredRole : Role) (d : Document) (c : Category) (w : Workspace)
    (hd : db.documents.find? (fun x => x.id == documentId) = some d)
    (hc : db.categories.find? (fun x => x.id == d.category_id) = some c)
    (hw : db.workspaces.find? (fun x => x.id == c.workspace_id) = some w)
    (hown : w.owner_id = userId) :
    checkDocumentAccess db userId documentId requiredRole = some .owner := by
  unfold checkDocumentAccess
  simp only [hd, hc, hw, hown, beq_self_eq_true, if_true]
  cases requiredRole <;> decide

/-- Witness for C6: the owner of workspace 1 also has an explicit
`viewer` membership row, yet resolves to `owner` against an
`admin`-required check. -/
theorem owner_supremacy_witness :
    checkDocumentAccess ownerWithRowDb 1 1 .admin = some .owner :=
  owner_supremacy ownerWithRowDb 1 1 .admin ⟨1, 1, "Doc", "draft", 1, 0⟩ ⟨1, 1⟩ ⟨1, 1⟩
    (by decide) (by decide) (by decide) (by decide)

/-- C7 counterexample: a `PUT /documents/:id/blocks` request naming a
document id that does not exist is answered 403, not the 404 the claim
requires — the access query finds no row first. -/
theorem missing_document_answered_403 :
    (putBlocks emptyDocsDb 1 1 [] false noFault).1 = 403 ∧
    (403 : Nat) ≠ 404 := by decide

/-- C7 amended: a request naming a nonexistent document id is refused by
the access check with 403 (and the state is untouched); the handler's
404 branch is unreachable while the document table does not change
between its two reads, so absent documents are not distinguished from
denied access. -/
theorem missing_document_403 (db : DB) (userId documentId : Nat)
    (blocks : List BlockInput) (createVersion : Bool) (F : Nat → Bool)
    (h : db.documents.find? (fun d => d.id == documentId) = none) :
    putBlocks db userId documentId blocks createVersion F = (403, db) := by
  unfold putBlocks checkDocumentAccess
  rw [h]

/-- Witness for C7's amended statement at a concrete state with no
documents. -/
theorem missing_document_403_witness :
    putBlocks emptyDocsDb 1 1 [] false noFault = (403, emptyDocsDb) :=
  missing_document_403 emptyDocsDb 1 1 [] false noFault (by decide)

theorem execStmts_append (F : Nat → Bool) (l1 l2 : List Stmt) :
    ∀ (i : Nat) (db : DB),
    execStmts F i (l1 ++ l2) db =
      (execStmts F i l1 db).bind (execStmts F (i + l1.length) l2) := by
  induction l1 with
  | nil => intro i db; simp [execStmts]
  | cons s rest ih =>
    intro i db
    simp only [List.cons_append, execStmts, List.length_cons]
    cases hF : F i with
    | true => simp
    | false =>
      simp only [Bool.false_eq_true, if_false]
      cases hA : applyStmt s db with
      | none => simp
      | some db2 =>
        simp only [Option.bind_some, Option.some_bind]
        rw [List.append_eq, ih]
        have harith : i + 1 + rest.length = i + (rest.length + 1) := by omega
        rw [harith]

theorem execStmts_single (F : Nat → Bool) (i : Nat) (s : Stmt) (db : DB) :
    execStmts F i [s] db = if F i then none else applyStmt s db := by
  cases hF : F i with
  | true => simp [execStmts, hF]
  | false =>
    simp only [execStmts, hF, Bool.false_eq_true, if_false]
    cases applyStmt s db <;> rfl

theorem exec_insertStmts_spec (inputs : List BlockInput) :
    ∀ (F : Nat → Bool) (i sortOrder documentId : Nat) (db db' : DB),
    execStmts F i (insertStmts documentId sortOrder inputs) db = some db' →
    db'.blocks = db.blocks ++ mkRows db.nextBlockId documentId sortOrder inputs ∧
    db'.document_versions = db.document_versions ∧
    db'.documents = db.documents ∧
    db'.now = db.now := by
  induction inputs with
  | nil =>
    intro F i so documentId db db' h
    simp only [insertStmts, execStmts] at h
    cases h
    simp [mkRows]
  | cons b rest ih =>
    intro F i so documentId db db' h
    simp only [insertStmts, execStmts] at h
    cases hF : F i with
    | true => simp [hF] at h
    | false =>
      simp only [hF, Bool.false_eq_true, if_false] at h
      rw [Option.bind_eq_some] at h
      obtain ⟨db1, hA, hRest⟩ := h
      simp only [applyStmt] at hA
      cases hT : isAllowedBlockType b.blockType with
      | false => simp [hT] at hA
      | true =>
        simp only [hT, if_true] at hA
        cases hA
        obtain ⟨h1, h2, h3, h4⟩ := ih F (i + 1) (so + 1) documentId _ db' hRest
        refine ⟨?_, h2, h3, h4⟩
        rw [h1]
        simp [mkRows, mkRow]

theorem mkRows_map_sortOrder (inputs : List BlockInput) :
    ∀ (id documentId sortOrder : Nat),
    (mkRows id documentId sortOrder inputs).map (fun b => b.sort_order) =
      List.range' sortOrder inputs.length := by
  induction inputs with
  | nil => intro id documentId so; simp [mkRows]
  | cons b rest ih =>
    intro id documentId so
    simp [mkRows, mkRow, List.range'_succ, ih]

theorem mkRows_document_id (inputs : List BlockInput) :
    ∀ (id documentId sortOrder : Nat) (b : Block),
    b ∈ mkRows id documentId sortOrder inputs → b.document_id = documentId := by
  induction inputs with
  | nil => intro id documentId so b h; simp [mkRows] at h
  | cons x rest ih =>
    intro id documentId so b h
    simp only [mkRows, List.mem_cons] at h
    rcases h with h | h
    · rw [h]; rfl
    · exact ih (id + 1) documentId (so + 1) b h

theorem mkRows_id_ge (inputs : List BlockInput) :
    ∀ (id documentId sortOrder : Nat) (b : Block),
    b ∈ mkRows id documentId sortOrder inputs → id ≤ b.id := by
  induction inputs with
  | nil => intro id documentId so b h; simp [mkRows] at h
  | cons x rest ih =>
    intro id documentId so b h
    simp only [mkRows, List.mem_cons] at h
    rcases h with h | h
    · rw [h]; simp [mkRow]
    · exact Nat.le_of_succ_le (ih (id + 1) documentId (so + 1) b h)

theorem txExec_spec (db : DB) (userId documentId : Nat)
    (blocks : List BlockInput) (createVersion : Bool) (F : Nat → Bool) (db' : DB)
    (h : execStmts F 0 (txStmts db userId documentId blocks createVersion) db = some db') :
    db'.blocks = db.blocks.filter (fun b => b.document_id != documentId) ++
      mkRows db.nextBlockId documentId 1 blocks ∧
    db'.document_versions = db.document_versions ++
      (if createVersion then
        [⟨db.nextVersionId, documentId, maxVersionNumber db documentId + 1,
          blocksOfDoc db documentId, userId⟩]
       else []) := by
  cases createVersion with
  | false =>
    have hl : txStmts db userId documentId blocks false =
        .deleteBlocks documentId ::
          (insertStmts documentId 1 blocks ++ [.touchDocument documentId]) := by
      simp [txStmts]
    rw [hl] at h
    simp only [execStmts] at h
    cases hF0 : F 0 with
    | true => simp [hF0] at h
    | false =>
      simp only [hF0, Bool.false_eq_true, if_false] at h
      rw [Option.bind_eq_some] at h
      obtain ⟨dbDel, hDel, hRest⟩ := h
      simp only [applyStmt] at hDel
      cases hDel
      rw [execStmts_append, Option.bind_eq_some] at hRest
      obtain ⟨dbIns, hIns, hTouch⟩ := hRest
      obtain ⟨h1, h2, h3, h4⟩ := exec_insertStmts_spec blocks F 1 1 documentId _ dbIns hIns
      rw [execStmts_single] at hTouch
      cases hFt : F (1 + (insertStmts documentId 1 blocks).length) with
      | true => simp [hFt] at hTouch
      | false =>
        simp only [hFt, Bool.false_eq_true, if_false, applyStmt] at hTouch
        cases hTouch
        refine ⟨by rw [h1], ?_⟩
        rw [h2]
        simp
  | true =>
    have hl : txStmts db userId documentId blocks true =
        .insertVersion documentId (maxVersionNumber db documentId + 1)
            (blocksOfDoc db documentId) userId ::
          .deleteBlocks documentId ::
            (insertStmts documentId 1 blocks ++ [.touchDocument documentId]) := by
      simp [txStmts]
    rw [hl] at h
    simp only [execStmts] at h
    cases hF0 : F 0 with
    | true => simp [hF0] at h
    | false =>
      simp only [hF0, Bool.false_eq_true, if_false] at h
      rw [Option.bind_eq_some] at h
      obtain ⟨dbV, hV, hRest⟩ := h
      simp only [applyStmt] at hV
      cases hV
      cases hF1 : F 1 with
      | true => simp [hF1] at hRest
      | false =>
        simp only [hF1, Bool.false_eq_true, if_false] at hRest
        rw [Option.bind_eq_some] at hRest
        obtain ⟨dbDel, hDel, hRest2⟩ := hRest
        simp only [applyStmt] at hDel
        cases hDel
        rw [execStmts_append, Option.bind_eq_some] at hRest2
        obtain ⟨dbIns, hIns, hTouch⟩ := hRest2
        obtain ⟨h1, h2, h3, h4⟩ := exec_insertStmts_spec blocks F 2 1 documentId _ dbIns hIns
        rw [execStmts_single] at hTouch
        cases hFt : F (2 + (insertStmts documentId 1 blocks).length) with
        | true => simp [hFt] at hTouch
        | false =>
          simp only [hFt, Bool.false_eq_true, if_false, applyStmt] at hTouch
          cases hTouch
          refine ⟨by rw [h1], ?_⟩
          rw [h2]
          simp

theorem putBlocks_success (db : DB) (userId documentId : Nat)
    (blocks : List BlockInput) (createVersion : Bool) (F : Nat → Bool)
    (h200 : (putBlocks db userId documentId blocks createVersion F).1 = 200) :
    execStmts F 0 (txStmts db userId documentId blocks createVersion) db =
      some (putBlocks db userId documentId blocks createVersion F).2 := by
  unfold putBlocks at h200 ⊢
  cases hA : checkDocumentAccess db userId documentId .writer with
  | none => simp [hA] at h200
  | some r =>
    simp only [hA] at h200 ⊢
    cases hD : db.documents.find? (fun d => d.id == documentId) with
    | none => simp [hD] at h200
    | some d =>
      simp only [hD] at h200 ⊢
      cases hE : execStmts F 0 (txStmts db userId documentId blocks createVersion) db with
      | none => simp [hE] at h200
      | some db2 => simp [hE]

/-- C3: every successful `PUT /documents/:id/blocks` call with input
length N leaves the document with sort orders exactly `1, 2, ..., N` in
input order — no gaps, no duplicates, N = 0 included — and none of the
document's previous block rows survive. -/
theorem saveBlocks_density (db : DB) (userId documentId : Nat)
    (blocks : List BlockInput) (createVersion : Bool) (F : Nat → Bool)
    (hwf : ∀ b ∈ db.blocks, b.id < db.nextBlockId)
    (h200 : (putBlocks db userId documentId blocks createVersion F).1 = 200) :
    ((blocksOfDoc (putBlocks db userId documentId blocks createVersion F).2
        documentId).map (fun b => b.sort_order)) = List.range' 1 blocks.length ∧
    ∀ b ∈ db.blocks, b.document_id = documentId →
      b ∉ (putBlocks db userId documentId blocks createVersion F).2.blocks := by
  have hE := putBlocks_success db userId documentId blocks createVersion F h200
  obtain ⟨hB, hV⟩ := txExec_spec db userId documentId blocks createVersion F _ hE
  constructor
  · rw [blocksOfDoc, hB, List.filter_append]
    have hnil : (db.blocks.filter (fun b => b.document_id != documentId)).filter
        (fun b => b.document_id == documentId) = [] := by
      rw [List.filter_eq_nil_iff]
      intro a ha
      have h2 := (List.mem_filter.mp ha).2
      simp only [bne_iff_ne, ne_eq] at h2
      simp [h2]
    have hself : (mkRows db.nextBlockId documentId 1 blocks).filter
        (fun b => b.document_id == documentId) =
        mkRows db.nextBlockId documentId 1 blocks := by
      rw [List.filter_eq_self]
      intro b hb
      have := mkRows_document_id blocks db.nextBlockId documentId 1 b hb
      simp [this]
    rw [hnil, hself, List.nil_append, mkRows_map_sortOrder]
  · intro b hb hdoc hmem
    rw [hB] at hmem
    rcases List.mem_append.mp hmem with hm | hm
    · have h2 := (List.mem_filter.mp hm).2
      simp [hdoc] at h2
    · have hge := mkRows_id_ge blocks db.nextBlockId documentId 1 b hm
      have hlt := hwf b hb
      omega

/-- Witness for C3: saving two text blocks over `sampleDb`'s document 1
yields sort orders `[1, 2]` and removes the old block row. -/
theorem saveBlocks_density_witness :
    ((blocksOfDoc (putBlocks sampleDb 1 1 [inputB, inputC] true noFault).2 1).map
      (fun b => b.sort_order)) = List.range' 1 [inputB, inputC].length ∧
    ∀ b ∈ sampleDb.blocks, b.document_id = 1 →
      b ∉ (putBlocks sampleDb 1 1 [inputB, inputC] true noFault).2.blocks :=
  saveBlocks_density sampleDb 1 1 [inputB, inputC] true noFault
    (by decide) (by decide)

/-- C5: a successful save with `createVersion = true` appends exactly one
`document_versions` row whose number is one plus the document's maximum
existing version number (1 when it has none, since the maximum is then 0)
and whose snapshot is the document's full block list as read before the
delete-and-reinsert. -/
theorem saveBlocks_version_snapshot (db : DB) (userId documentId : Nat)
    (blocks : List BlockInput) (F : Nat → Bool)
    (h200 : (putBlocks db userId documentId blocks true F).1 = 200) :
    (putBlocks db userId documentId blocks true F).2.document_versions =
      db.document_versions ++
        [⟨db.nextVersionId, documentId, maxVersionNumber db documentId + 1,
          blocksOfDoc db documentId, userId⟩] := by
  have hE := putBlocks_success db userId documentId blocks true F h200
  obtain ⟨hB, hV⟩ := txExec_spec db userId documentId blocks true F _ hE
  simpa using hV

/-- Witness for C5 at `sampleDb`: the inserted row is version 1 and its
snapshot is the pre-save block list `[block "A"]`. -/
theorem saveBlocks_version_snapshot_witness :
    (putBlocks sampleDb 1 1 [inputB] true noFault).2.document_versions =
      sampleDb.document_versions ++
        [⟨sampleDb.nextVersionId, 1, maxVersionNumber sampleDb 1 + 1,
          blocksOfDoc sampleDb 1, 1⟩] :=
  saveBlocks_version_snapshot sampleDb 1 1 [inputB] noFault (by decide)

theorem applyStmt_none_of_bad (s : Stmt) (db : DB) (h : isBadStmt s = true) :
    applyStmt s db = none := by
  cases s with
  | insertBlock documentId input sortOrder =>
    simp only [isBadStmt, Bool.not_eq_true'] at h
    simp [applyStmt, h]
  | insertVersion documentId versionNumber snapshot createdBy => simp [isBadStmt] at h
  | deleteBlocks documentId => simp [isBadStmt] at h
  | touchDocument documentId => simp [isBadStmt] at h

theorem applyStmt_isSome_of_good (s : Stmt) (db : DB) (h : isBadStmt s = false) :
    (applyStmt s db).isSome = true := by
  cases s with
  | insertBlock documentId input sortOrder =>
    simp only [isBadStmt] at h
    have h2 : isAllowedBlockType input.blockType = true := by
      cases hT : isAllowedBlockType input.blockType
      · rw [hT] at h; simp at h
      · rfl
    simp [applyStmt, h2]
  | insertVersion documentId versionNumber snapshot createdBy => simp [applyStmt]
  | deleteBlocks documentId => simp [applyStmt]
  | touchDocument documentId => simp [applyStmt]

theorem exec_noFault_bad (stmts : List Stmt) :
    ∀ (i : Nat) (db : DB), stmts.any isBadStmt = true →
    execStmts noFault i stmts db = none := by
  induction stmts with
  | nil => intro i db h; simp at h
  | cons s rest ih =>
    intro i db h
    simp only [List.any_cons, Bool.or_eq_true] at h
    simp only [execStmts, noFault, Bool.false_eq_true, if_false]
    cases hB : isBadStmt s with
    | true => rw [applyStmt_none_of_bad s db hB]; rfl
    | false =>
      rcases h with h | h
      · rw [hB] at h; cases h
      · cases hA : applyStmt s db with
        | none => rfl
        | some db2 => simpa using ih (i + 1) db2 h

theorem insertStmts_any_bad (inputs : List BlockInput) :
    ∀ (documentId sortOrder : Nat),
    (insertStmts documentId sortOrder inputs).any isBadStmt =
      inputs.any (fun b => !(isAllowedBlockType b.blockType)) := by
  induction inputs with
  | nil => intro documentId so; simp [insertStmts]
  | cons b rest ih =>
    intro documentId so
    simp [insertStmts, isBadStmt, ih]

theorem txStmts_any_bad (db : DB) (userId documentId : Nat)
    (blocks : List BlockInput) (createVersion : Bool) :
    (txStmts db userId documentId blocks createVersion).any isBadStmt =
      blocks.any (fun b => !(isAllowedBlockType b.blockType)) := by
  cases createVersion <;>
    simp [txStmts, List.any_append, insertStmts_any_bad, isBadStmt]

/-- C8 counterexample: saving a block of unknown type `"video"` over
`sampleDb` is not rejected before mutation — inside the transaction the
DELETE of the document's blocks executes first (the applied-statement
trace is `[deleteBlocks 1]`, not empty) and the request fails as a
storage error (HTTP 500), not as a pre-mutation validation error. -/
theorem invalid_block_type_mutation_observed :
    appliedStmts noFault 0 (txStmts sampleDb 1 1 [badInput] false) sampleDb =
      [.deleteBlocks 1] ∧
    (putBlocks sampleDb 1 1 [badInput] false noFault).1 = 500 := by decide

/-- C8 amended: a save whose input contains a block with type outside
`{text, image, file}` never succeeds — the INSERT violates the
`block_type` constraint inside the transaction (after the snapshot and
DELETE statements have already run) — and the rollback leaves blocks,
version rows, and the document timestamp exactly as they were; the
failure surfaces as a storage error, not as a pre-mutation validation
rejection. -/
theorem invalid_block_type_rolls_back (db : DB) (userId documentId : Nat)
    (blocks : List BlockInput) (createVersion : Bool)
    (hbad : blocks.any (fun b => !(isAllowedBlockType b.blockType)) = true) :
    (putBlocks db userId documentId blocks createVersion noFault).1 ≠ 200 ∧
    (putBlocks db userId documentId blocks createVersion noFault).2 = db := by
  unfold putBlocks
  cases hA : checkDocumentAccess db userId documentId .writer with
  | none => exact ⟨by simp, rfl⟩
  | some r =>
    cases hD : db.documents.find? (fun d => d.id == documentId) with
    | none => exact ⟨by simp, rfl⟩
    | some d =>
      have hE : execStmts noFault 0
          (txStmts db userId documentId blocks createVersion) db = none :=
        exec_noFault_bad _ 0 db (by rw [txStmts_any_bad]; exact hbad)
      rw [hE]
      exact ⟨by simp, rfl⟩

/-- Witness for C8's amended statement: the `"video"` block save over
`sampleDb` fails and changes nothing. -/
theorem invalid_block_type_rolls_back_witness :
    (putBlocks sampleDb 1 1 [badInput] false noFault).1 ≠ 200 ∧
    (putBlocks sampleDb 1 1 [badInput] false noFault).2 = sampleDb :=
  invalid_block_type_rolls_back sampleDb 1 1 [badInput] false (by decide)

/-- C10: every document created through `POST /api/documents` is
initialized with exactly one block — an empty text block with sort
order 1 — so a freshly created document is never returned with zero
blocks. -/
theorem create_document_default_block (db : DB) (userId : Nat)
    (categoryId : Option Nat) (title : Option String) (status : String)
    (newId : Nat)
    (hwfD : ∀ d ∈ db.documents, d.id < db.nextDocumentId)
    (hwfB : ∀ b ∈ db.blocks, b.document_id ∈ db.documents.map (fun d => d.id))
    (h : (createDocument db userId categoryId title status).2.2 = some newId) :
    blocksOfDoc (createDocument db userId categoryId title status).2.1 newId =
      [⟨db.nextBlockId, newId, "text", "", none, none, none, 1⟩] ∧
    blocksOfDoc (createDocument db userId categoryId title status).2.1 newId ≠ [] := by
  unfold createDocument at h ⊢
  cases h0 : (categoryId.getD 0 == 0 || title.getD "" == "") with
  | true => simp [h0] at h
  | false =>
    simp only [h0, Bool.false_eq_true, if_false] at h ⊢
    cases hAcc : checkCategoryAccess db userId (categoryId.getD 0) .writer with
    | none => simp [hAcc] at h
    | some r =>
      simp only [hAcc] at h ⊢
      cases hS : isAllowedDocStatus status with
      | false => simp [hS] at h
      | true =>
        simp only [hS, if_true] at h ⊢
        have hnew : newId = db.nextDocumentId := by
          simpa using h.symm
        subst hnew
        have hnil : db.blocks.filter (fun b => b.document_id == db.nextDocumentId) = [] := by
          rw [List.filter_eq_nil_iff]
          intro b hb
          obtain ⟨d, hd, hdi⟩ := List.mem_map.mp (hwfB b hb)
          have := hwfD d hd
          simp only [beq_iff_eq]
          omega
        refine ⟨?_, ?_⟩ <;>
          simp [blocksOfDoc, List.filter_append, hnil]

/-- Witness for C10: creating a document over `sampleDb` yields new
document 2 holding exactly the single empty text block with sort
order 1. -/
theorem create_document_default_block_witness :
    blocksOfDoc (createDocument sampleDb 1 (some 1) (some "New") "draft").2.1 2 =
      [⟨sampleDb.nextBlockId, 2, "text", "", none, none, none, 1⟩] ∧
    blocksOfDoc (createDocument sampleDb 1 (some 1) (some "New") "draft").2.1 2 ≠ [] :=
  create_document_default_block sampleDb 1 (some 1) (some "New") "draft" 2
    (by decide) (by decide) (by decide)

theorem foldr_max_range' (n : Nat) :
    ∀ (s : Nat), List.foldr max 0 (List.range' s n) =
      if n = 0 then 0 else s + n - 1 := by
  induction n with
  | zero => intro s; simp
  | succ m ih =>
    intro s
    rw [List.range'_succ]
    simp only [List.foldr_cons, ih]
    cases m with
    | zero => simp
    | succ k => simp; omega

theorem max_of_gapless (l : List Nat) (hg : gapless l) :
    l.foldr max 0 = l.length := by
  have hfold := @List.Perm.foldr_eq _ _ max _ _ ⟨fun a b c => by omega⟩ hg 0
  rw [hfold, foldr_max_range' l.length 1]
  split <;> omega

theorem shift_insert_perm (N so : Nat) (h1 : 1 ≤ so) (h2 : so ≤ N + 1) :
    List.Perm
      (((List.range' 1 N).map (fun o => if so ≤ o then o + 1 else o)) ++ [so])
      (List.range' 1 (N + 1)) := by
  obtain ⟨k, rfl⟩ : ∃ k, so = k + 1 := ⟨so - 1, by omega⟩
  have hk : k ≤ N := by omega
  have hsplit : List.range' 1 N = List.range' 1 k ++ List.range' (1 + k) (N - k) := by
    have h := List.range'_append 1 k (N - k) 1
    simp only [Nat.one_mul] at h
    rw [h]
    congr 1
    omega
  rw [hsplit, List.map_append]
  have hm1 : (List.range' 1 k).map (fun o => if k + 1 ≤ o then o + 1 else o) =
      List.range' 1 k := by
    rw [List.map_congr_left, List.map_id]
    intro o ho
    obtain ⟨i, hi, rfl⟩ := List.mem_range'.mp ho
    simp only [Nat.one_mul]
    have hno : ¬ (k + 1 ≤ 1 + i) := by omega
    simp [hno]
  have hm2 : (List.range' (1 + k) (N - k)).map (fun o => if k + 1 ≤ o then o + 1 else o) =
      List.range' (2 + k) (N - k) := by
    have hcongr : (List.range' (1 + k) (N - k)).map (fun o => if k + 1 ≤ o then o + 1 else o) =
        (List.range' (1 + k) (N - k)).map (fun o => 1 + o) := by
      apply List.map_congr_left
      intro o ho
      obtain ⟨i, hi, rfl⟩ := List.mem_range'.mp ho
      simp only [Nat.one_mul]
      have hyes : k + 1 ≤ 1 + k + i := by omega
      simp [hyes]
      omega
    rw [hcongr, List.map_add_range']
    congr 1
    omega
  rw [hm1, hm2]
  have hperm1 : List.Perm
      ((List.range' 1 k ++ List.range' (2 + k) (N - k)) ++ [k + 1])
      (List.range' 1 k ++ ([k + 1] ++ List.range' (2 + k) (N - k))) := by
    rw [List.append_assoc]
    exact List.Perm.append_left _ (List.perm_append_comm)
  refine hperm1.trans ?_
  have heq : List.range' 1 k ++ ([k + 1] ++ List.range' (2 + k) (N - k)) =
      List.range' 1 (N + 1) := by
    rw [← List.append_assoc]
    have hc : List.range' 1 k ++ [k + 1] = List.range' 1 (k + 1) := by
      rw [List.range'_1_concat]
      congr 1
      simp [Nat.add_comm]
    rw [hc]
    have h := List.range'_append 1 (k + 1) (N - k) 1
    simp only [Nat.one_mul] at h
    have harg : 1 + (k + 1) = 2 + k := by omega
    rw [harg] at h
    rw [h]
    congr 1
    omega
  rw [heq]

theorem erase_dec_perm (N k : Nat) (h1 : 1 ≤ k) (h2 : k ≤ N) :
    ((List.range' 1 N).erase k).map (fun o => if k < o then o - 1 else o) =
      List.range' 1 (N - 1) := by
  have hsplit : List.range' 1 N =
      List.range' 1 (k - 1) ++ (k :: List.range' (k + 1) (N - k)) := by
    have h := List.range'_append 1 (k - 1) (N - (k - 1)) 1
    simp only [Nat.one_mul] at h
    have harg : 1 + (k - 1) = k := by omega
    rw [harg] at h
    have harg2 : N - (k - 1) + (k - 1) = N := by omega
    rw [harg2] at h
    rw [← h]
    congr 1
    have harg3 : N - (k - 1) = (N - k) + 1 := by omega
    rw [harg3, List.range'_succ]
  rw [hsplit]
  have hnotmem : k ∉ List.range' 1 (k - 1) := by
    intro hmem
    obtain ⟨i, hi, heq⟩ := List.mem_range'.mp hmem
    omega
  rw [List.erase_append_right _ hnotmem, List.erase_cons_head, List.map_append]
  have hm1 : (List.range' 1 (k - 1)).map (fun o => if k < o then o - 1 else o) =
      List.range' 1 (k - 1) := by
    rw [List.map_congr_left, List.map_id]
    intro o ho
    obtain ⟨i, hi, rfl⟩ := List.mem_range'.mp ho
    simp only [Nat.one_mul]
    have hno : ¬ (k < 1 + i) := by omega
    simp [hno]
  have hm2 : (List.range' (k + 1) (N - k)).map (fun o => if k < o then o - 1 else o) =
      List.range' k (N - k) := by
    have hcongr : (List.range' (k + 1) (N - k)).map (fun o => if k < o then o - 1 else o) =
        (List.range' (k + 1) (N - k)).map (fun o => o - 1) := by
      apply List.map_congr_left
      intro o ho
      obtain ⟨i, hi, rfl⟩ := List.mem_range'.mp ho
      simp only [Nat.one_mul]
      have hyes : k < k + 1 + i := by omega
      simp [hyes]
    rw [hcongr]
    have hrw : List.range' (k + 1) (N - k) =
        (List.range' k (N - k)).map (fun x => 1 + x) := by
      rw [List.map_add_range']
      congr 1
      omega
    rw [hrw, List.map_map]
    rw [List.map_congr_left, List.map_id]
    intro o ho
    simp
  rw [hm1, hm2]
  have h := List.range'_append 1 (k - 1) (N - k) 1
  simp only [Nat.one_mul] at h
  have harg : 1 + (k - 1) = k := by omega
  rw [harg] at h
  rw [h]
  congr 1
  omega

theorem filter_map_comm (g : Block → Block) (p : Block → Bool)
    (hp : ∀ b, p (g b) = p b) :
    ∀ (l : List Block), (l.map g).filter p = (l.filter p).map g := by
  intro l
  induction l with
  | nil => rfl
  | cons b rest ih =>
    simp only [List.map_cons, List.filter_cons, hp b]
    cases hpb : p b <;> simp [ih]

theorem createBlock_append_gapless (db : DB) (userId documentId : Nat)
    (blockType : String) (content fileUrl fileName : Option String)
    (fileSize : Option Nat)
    (h201 : (createBlock db userId documentId blockType content fileUrl
      fileName fileSize none).1 = 201)
    (hg : gapless ((blocksOfDoc db documentId).map (fun b => b.sort_order))) :
    gapless ((blocksOfDoc (createBlock db userId documentId blockType content
      fileUrl fileName fileSize none).2 documentId).map (fun b => b.sort_order)) := by
  unfold createBlock at h201 ⊢
  revert h201
  cases h0 : (documentId == 0 || blockType == "") with
  | true => intro h201; simp at h201
  | false =>
    cases hAcc : checkDocumentAccess db userId documentId .writer with
    | none => intro h201; simp at h201
    | some r =>
      cases hT : isAllowedBlockType blockType with
      | false => intro h201; simp at h201
      | true =>
        intro h201
        show gapless (((db.blocks ++
            [(⟨db.nextBlockId, documentId, blockType, jsOrEmpty content,
              jsOrNullStr fileUrl, jsOrNullStr fileName, jsOrNullNat fileSize,
              maxSortOrder db documentId + 1⟩ : Block)]).filter
            (fun b => b.document_id == documentId)).map (fun b => b.sort_order))
        rw [List.filter_append]
        have hrow : List.filter (fun b => b.document_id == documentId)
            [(⟨db.nextBlockId, documentId, blockType, jsOrEmpty content,
              jsOrNullStr fileUrl, jsOrNullStr fileName, jsOrNullNat fileSize,
              maxSortOrder db documentId + 1⟩ : Block)] =
            [⟨db.nextBlockId, documentId, blockType, jsOrEmpty content,
              jsOrNullStr fileUrl, jsOrNullStr fileName, jsOrNullNat fileSize,
              maxSortOrder db documentId + 1⟩] := by
          simp
        rw [hrow]
        have hfold : db.blocks.filter (fun b => b.document_id == documentId) =
            blocksOfDoc db documentId := rfl
        rw [hfold, List.map_append]
        set orders := (blocksOfDoc db documentId).map (fun b => b.sort_order)
          with horders
        have hmax : maxSortOrder db documentId = orders.length :=
          max_of_gapless orders hg
        simp only [List.map_cons, List.map_nil, hmax]
        have hconc : List.range' 1 orders.length ++ [orders.length + 1] =
            List.range' 1 (orders.length + 1) := by
          rw [List.range'_1_concat]
          simp [Nat.add_comm]
        have hfinal : List.Perm (orders ++ [orders.length + 1])
            (List.range' 1 (orders.length + 1)) := by
          have h1 := hg.append_right [orders.length + 1]
          exact hconc ▸ h1
        unfold gapless
        rw [show (orders ++ [orders.length + 1]).length = orders.length + 1 from by simp]
        exact hfinal

theorem createBlock_insert_after_gapless (db : DB) (userId documentId : Nat)
    (blockType : String) (content fileUrl fileName : Option String)
    (fileSize : Option Nat) (afterBlockId : Nat) (afterBlock : Block)
    (habid : afterBlockId ≠ 0)
    (hfind : db.blocks.find? (fun b => b.id == afterBlockId) = some afterBlock)
    (hdoc : afterBlock.document_id = documentId)
    (h201 : (createBlock db userId documentId blockType content fileUrl
      fileName fileSize (some afterBlockId)).1 = 201)
    (hg : gapless ((blocksOfDoc db documentId).map (fun b => b.sort_order))) :
    gapless ((blocksOfDoc (createBlock db userId documentId blockType content
      fileUrl fileName fileSize (some afterBlockId)).2 documentId).map
      (fun b => b.sort_order)) := by
  have hjs : jsOrNullNat (some afterBlockId) = some afterBlockId := by
    cases afterBlockId with
    | zero => exact absurd rfl habid
    | succ m => rfl
  unfold createBlock at h201 ⊢
  revert h201
  cases h0 : (documentId == 0 || blockType == "") with
  | true => intro h201; simp at h201
  | false =>
    cases hAcc : checkDocumentAccess db userId documentId .writer with
    | none => intro h201; simp at h201
    | some r =>
      rw [hjs]
      simp only [hfind]
      cases hT : isAllowedBlockType blockType with
      | false => intro h201; simp at h201
      | true =>
        intro h201
        show gapless ((((db.blocks.map (fun b =>
            if (b.document_id == documentId &&
                decide (afterBlock.sort_order + 1 ≤ b.sort_order)) = true then
              (⟨b.id, b.document_id, b.block_type, b.content, b.file_url,
                b.file_name, b.file_size, b.sort_order + 1⟩ : Block)
            else b)) ++
            [(⟨db.nextBlockId, documentId, blockType, jsOrEmpty content,
              jsOrNullStr fileUrl, jsOrNullStr fileName, jsOrNullNat fileSize,
              afterBlock.sort_order + 1⟩ : Block)]).filter
            (fun b => b.document_id == documentId)).map (fun b => b.sort_order))
        rw [List.filter_append]
        have hrow : List.filter (fun b => b.document_id == documentId)
            [(⟨db.nextBlockId, documentId, blockType, jsOrEmpty content,
              jsOrNullStr fileUrl, jsOrNullStr fileName, jsOrNullNat fileSize,
              afterBlock.sort_order + 1⟩ : Block)] =
            [⟨db.nextBlockId, documentId, blockType, jsOrEmpty content,
              jsOrNullStr fileUrl, jsOrNullStr fileName, jsOrNullNat fileSize,
              afterBlock.sort_order + 1⟩] := by
          simp
        rw [hrow]
        have hpres : ∀ b : Block,
            ((if (b.document_id == documentId &&
                decide (afterBlock.sort_order + 1 ≤ b.sort_order)) = true then
              (⟨b.id, b.document_id, b.block_type, b.content, b.file_url,
                b.file_name, b.file_size, b.sort_order + 1⟩ : Block)
            else b).document_id == documentId) = (b.document_id == documentId) := by
          intro b
          by_cases hc : (b.document_id == documentId &&
              decide (afterBlock.sort_order + 1 ≤ b.sort_order)) = true <;>
            simp [hc]
        rw [filter_map_comm _ _ hpres]
        have hfold : db.blocks.filter (fun b => b.document_id == documentId) =
            blocksOfDoc db documentId := rfl
        rw [hfold, List.map_append, List.map_map]
        have hcongr : (blocksOfDoc db documentId).map ((fun b => b.sort_order) ∘
            (fun b : Block =>
              if (b.document_id == documentId &&
                  decide (afterBlock.sort_order + 1 ≤ b.sort_order)) = true then
                (⟨b.id, b.document_id, b.block_type, b.content, b.file_url,
                  b.file_name, b.file_size, b.sort_order + 1⟩ : Block)
              else b)) =
            ((blocksOfDoc db documentId).map (fun b => b.sort_order)).map
              (fun o => if afterBlock.sort_order + 1 ≤ o then o + 1 else o) := by
          rw [List.map_map]
          apply List.map_congr_left
          intro b hb
          have hbdoc : (b.document_id == documentId) = true :=
            (List.mem_filter.mp hb).2
          simp only [Function.comp]
          by_cases hso : afterBlock.sort_order + 1 ≤ b.sort_order
          · simp [hbdoc, hso]
          · simp [hbdoc, hso]
        rw [hcongr]
        simp only [List.map_cons, List.map_nil]
        set orders := (blocksOfDoc db documentId).map (fun b => b.sort_order)
          with horders
        have hmemdb : afterBlock ∈ db.blocks := List.mem_of_find?_eq_some hfind
        have hmemL : afterBlock ∈ blocksOfDoc db documentId :=
          List.mem_filter.mpr ⟨hmemdb, by simp [hdoc]⟩
        have hmemOrd : afterBlock.sort_order ∈ orders :=
          List.mem_map_of_mem _ hmemL
        have hmemR : afterBlock.sort_order ∈ List.range' 1 orders.length :=
          hg.subset hmemOrd
        obtain ⟨i, hiN, hkeq⟩ := List.mem_range'.mp hmemR
        have h1 : 1 ≤ afterBlock.sort_order + 1 := by omega
        have h2 : afterBlock.sort_order + 1 ≤ orders.length + 1 := by omega
        have hmap := List.Perm.map
          (fun o => if afterBlock.sort_order + 1 ≤ o then o + 1 else o) hg
        have happ := hmap.append_right [afterBlock.sort_order + 1]
        have htotal := happ.trans
          (shift_insert_perm orders.length (afterBlock.sort_order + 1) h1 h2)
        unfold gapless
        rw [show ((orders.map (fun o => if afterBlock.sort_order + 1 ≤ o then o + 1 else o)) ++
            [afterBlock.sort_order + 1]).length = orders.length + 1 from by simp]
        simpa using htotal

theorem deleteBlock_gapless (db : DB) (userId blockId : Nat) (block : Block)
    (hfind : db.blocks.find? (fun b => b.id == blockId) = some block)
    (hnodup : (db.blocks.map (fun b => b.id)).Nodup)
    (h200 : (deleteBlock db userId blockId).1 = 200)
    (hg : gapless ((blocksOfDoc db block.document_id).map (fun b => b.sort_order))) :
    gapless ((blocksOfDoc (deleteBlock db userId blockId).2 block.document_id).map
      (fun b => b.sort_order)) := by
  unfold deleteBlock at h200 ⊢
  revert h200
  rw [hfind]
  cases hAcc : checkDocumentAccess db userId block.document_id .writer with
  | none => simp only [hAcc]; intro h200; simp at h200
  | some r =>
    simp only [hAcc]
    intro h200
    show gapless ((((db.blocks.filter (fun b => b.id != blockId)).map (fun b =>
        if (b.document_id == block.document_id &&
            decide (block.sort_order < b.sort_order)) = true then
          (⟨b.id, b.document_id, b.block_type, b.content, b.file_url,
            b.file_name, b.file_size, b.sort_order - 1⟩ : Block)
        else b)).filter
        (fun b => b.document_id == block.document_id)).map (fun b => b.sort_order))
    have hpres : ∀ b : Block,
        ((if (b.document_id == block.document_id &&
            decide (block.sort_order < b.sort_order)) = true then
          (⟨b.id, b.document_id, b.block_type, b.content, b.file_url,
            b.file_name, b.file_size, b.sort_order - 1⟩ : Block)
        else b).document_id == block.document_id) =
        (b.document_id == block.document_id) := by
      intro b
      by_cases hc : (b.document_id == block.document_id &&
          decide (block.sort_order < b.sort_order)) = true <;>
        simp [hc]
    rw [filter_map_comm _ _ hpres, List.filter_comm]
    have hfold : db.blocks.filter (fun b => b.document_id == block.document_id) =
        blocksOfDoc db block.document_id := rfl
    rw [hfold]
    have hmemdb : block ∈ db.blocks := List.mem_of_find?_eq_some hfind
    have hbid0 := List.find?_some hfind
    have hbid : (block.id == blockId) = true := hbid0
    have hblockId : block.id = blockId := by simpa using hbid
    have hmemL : block ∈ blocksOfDoc db block.document_id :=
      List.mem_filter.mpr ⟨hmemdb, by simp⟩
    obtain ⟨L1, L2, hLdec⟩ := List.append_of_mem hmemL
    have hnodupL : ((blocksOfDoc db block.document_id).map (fun b => b.id)).Nodup :=
      List.Nodup.sublist (List.Sublist.map _ (List.filter_sublist _)) hnodup
    have hm : ((L1 ++ block :: L2).map (fun b => b.id)).Nodup := by
      rw [← hLdec]; exact hnodupL
    rw [List.map_append, List.map_cons] at hm
    rcases List.nodup_append.mp hm with ⟨hn1, hn2, hdisj⟩
    rcases List.nodup_cons.mp hn2 with ⟨hnotm2, hn2l⟩
    have hL1 : ∀ b ∈ L1, (b.id != blockId) = true := by
      intro b hb
      have hne : b.id ≠ block.id := by
        intro hEq
        exact (hdisj (List.mem_map_of_mem _ hb)) (by rw [hEq]; exact List.mem_cons_self _ _)
      rw [← hblockId]
      simpa [bne_iff_ne] using hne
    have hL2 : ∀ b ∈ L2, (b.id != blockId) = true := by
      intro b hb
      have hne : b.id ≠ block.id := by
        intro hEq
        exact hnotm2 (hEq ▸ List.mem_map_of_mem _ hb)
      rw [← hblockId]
      simpa [bne_iff_ne] using hne
    have hfilterL : (blocksOfDoc db block.document_id).filter
        (fun b => b.id != blockId) = L1 ++ L2 := by
      rw [hLdec, List.filter_append, List.filter_cons]
      have hbfalse : (block.id != blockId) = false := by
        simp [bne, hbid]
      rw [hbfalse]
      simp only [Bool.false_eq_true, if_false]
      rw [List.filter_eq_self.mpr hL1, List.filter_eq_self.mpr hL2]
    rw [hfilterL]
    have hmapmap : ((L1 ++ L2).map (fun b : Block =>
        if (b.document_id == block.document_id &&
            decide (block.sort_order < b.sort_order)) = true then
          (⟨b.id, b.document_id, b.block_type, b.content, b.file_url,
            b.file_name, b.file_size, b.sort_order - 1⟩ : Block)
        else b)).map (fun b => b.sort_order) =
        ((L1 ++ L2).map (fun b => b.sort_order)).map
          (fun o => if block.sort_order < o then o - 1 else o) := by
      rw [List.map_map, List.map_map]
      apply List.map_congr_left
      intro b hb
      have hbL : b ∈ blocksOfDoc db block.document_id := by
        rw [hLdec]
        rcases List.mem_append.mp hb with h | h
        · exact List.mem_append.mpr (Or.inl h)
        · exact List.mem_append.mpr (Or.inr (List.mem_cons_of_mem _ h))
      have hbdoc : (b.document_id == block.document_id) = true :=
        (List.mem_filter.mp hbL).2
      simp only [Function.comp]
      by_cases hlt : block.sort_order < b.sort_order
      · simp [hbdoc, hlt]
      · simp [hbdoc, hlt]
    rw [hmapmap, List.map_append]
    set M1 := L1.map (fun b => b.sort_order) with hM1
    set M2 := L2.map (fun b => b.sort_order) with hM2
    set N := ((blocksOfDoc db block.document_id).map (fun b => b.sort_order)).length
      with hN
    have hordersdec : (blocksOfDoc db block.document_id).map (fun b => b.sort_order) =
        M1 ++ block.sort_order :: M2 := by
      rw [hLdec]; simp [hM1, hM2]
    have hg' : List.Perm (M1 ++ block.sort_order :: M2) (List.range' 1 N) := by
      rw [← hordersdec]; exact hg
    have hmid : List.Perm (block.sort_order :: (M1 ++ M2)) (List.range' 1 N) :=
      (List.perm_middle.symm).trans hg'
    have herase : List.Perm (M1 ++ M2) ((List.range' 1 N).erase block.sort_order) := by
      have h := List.Perm.erase block.sort_order hmid
      rwa [List.erase_cons_head] at h
    have hkmem : block.sort_order ∈ List.range' 1 N := by
      have hmem : block.sort_order ∈ M1 ++ block.sort_order :: M2 :=
        List.mem_append.mpr (Or.inr (List.mem_cons_self _ _))
      exact hg'.subset hmem
    obtain ⟨i, hiN, hkeq⟩ := List.mem_range'.mp hkmem
    have hk1 : 1 ≤ block.sort_order := by omega
    have hkN : block.sort_order ≤ N := by omega
    have hpermFinal : List.Perm ((M1 ++ M2).map
        (fun o => if block.sort_order < o then o - 1 else o))
        (List.range' 1 (N - 1)) := by
      have h := herase.map (fun o => if block.sort_order < o then o - 1 else o)
      rwa [erase_dec_perm N block.sort_order hk1 hkN] at h
    have hlen : ((M1 ++ M2).map
        (fun o => if block.sort_order < o then o - 1 else o)).length = N - 1 := by
      have h := hpermFinal.length_eq
      simpa using h
    unfold gapless
    rw [hlen]
    exact hpermFinal

/-- C9 counterexample: document 1 of `twoBlocksDb` is gapless (orders
`[1, 2]`), yet a `POST /api/blocks` naming a dangling `afterBlockId`
(no block 99 exists) succeeds with 201 and inserts at sort order 1
without shifting anything, leaving orders `[1, 2, 1]` — duplicated, not
gapless. -/
theorem dangling_after_block_breaks_density :
    gapless ((blocksOfDoc twoBlocksDb 1).map (fun b => b.sort_order)) ∧
    (createBlock twoBlocksDb 1 1 "text" (some "C") none none none (some 99)).1 = 201 ∧
    ¬ gapless ((blocksOfDoc (createBlock twoBlocksDb 1 1 "text" (some "C")
        none none none (some 99)).2 1).map (fun b => b.sort_order)) := by
  decide

/-- C9 amended: the single-block mutation endpoints preserve gaplessness
in the cases where the claim's description of them is accurate — a
successful `POST /api/blocks` without `afterBlockId` appends at max
sort order + 1; a successful one whose `afterBlockId` names an existing
block of the same document shifts every later block up by one and
inserts in the gap; and a successful `DELETE /api/blocks/:id` (with
unique block ids) compacts the later sort orders down by one — but not
when `afterBlockId` is dangling or names a block of another document,
where the insert happens without a consistent shift. -/
theorem block_endpoints_preserve_density :
    (∀ (db : DB) (userId documentId : Nat) (blockType : String)
        (content fileUrl fileName : Option String) (fileSize : Option Nat),
      (createBlock db userId documentId blockType content fileUrl fileName
        fileSize none).1 = 201 →
      gapless ((blocksOfDoc db documentId).map (fun b => b.sort_order)) →
      gapless ((blocksOfDoc (createBlock db userId documentId blockType content
        fileUrl fileName fileSize none).2 documentId).map (fun b => b.sort_order))) ∧
    (∀ (db : DB) (userId documentId : Nat) (blockType : String)
        (content fileUrl fileName : Option String) (fileSize : Option Nat)
        (afterBlockId : Nat) (afterBlock : Block),
      afterBlockId ≠ 0 →
      db.blocks.find? (fun b => b.id == afterBlockId) = some afterBlock →
      afterBlock.document_id = documentId →
      (createBlock db userId documentId blockType content fileUrl fileName
        fileSize (some afterBlockId)).1 = 201 →
      gapless ((blocksOfDoc db documentId).map (fun b => b.sort_order)) →
      gapless ((blocksOfDoc (createBlock db userId documentId blockType content
        fileUrl fileName fileSize (some afterBlockId)).2 documentId).map
        (fun b => b.sort_order))) ∧
    (∀ (db : DB) (userId blockId : Nat) (block : Block),
      db.blocks.find? (fun b => b.id == blockId) = some block →
      (db.blocks.map (fun b => b.id)).Nodup →
      (deleteBlock db userId blockId).1 = 200 →
      gapless ((blocksOfDoc db block.document_id).map (fun b => b.sort_order)) →
      gapless ((blocksOfDoc (deleteBlock db userId blockId).2
        block.document_id).map (fun b => b.sort_order))) :=
  ⟨createBlock_append_gapless,
   fun db userId documentId blockType content fileUrl fileName fileSize
       afterBlockId afterBlock habid hfind hdoc h201 hg =>
     createBlock_insert_after_gapless db userId documentId blockType content
       fileUrl fileName fileSize afterBlockId afterBlock habid hfind hdoc h201 hg,
   deleteBlock_gapless⟩

/-- Witness for C9's amended statement over `twoBlocksDb` (orders
`[1, 2]`): an append, an insert after block 1, and a delete of block 1
each leave the document gapless. -/
theorem block_endpoints_preserve_density_witness :
    gapless ((blocksOfDoc (createBlock twoBlocksDb 1 1 "text" (some "C")
      none none none none).2 1).map (fun b => b.sort_order)) ∧
    gapless ((blocksOfDoc (createBlock twoBlocksDb 1 1 "text" (some "C")
      none none none (some 1)).2 1).map (fun b => b.sort_order)) ∧
    gapless ((blocksOfDoc (deleteBlock twoBlocksDb 1 1).2 1).map
      (fun b => b.sort_order)) :=
  ⟨block_endpoints_preserve_density.1 twoBlocksDb 1 1 "text" (some "C")
      none none none (by decide) (by decide),
   block_endpoints_preserve_density.2.1 twoBlocksDb 1 1 "text" (some "C")
      none none none 1 ⟨1, 1, "text", "A", none, none, none, 1⟩
      (by decide) (by decide) (by decide) (by decide) (by decide),
   block_endpoints_preserve_density.2.2 twoBlocksDb 1 1
      ⟨1, 1, "text", "A", none, none, none, 1⟩
      (by decide) (by decide) (by decide) (by decide)⟩

end Menualai
